import Mathlib

/-!
Verification of the StorySoFar-Reader core against its specification.

The development shallowly embeds the program's core logic:

* `services/geminiService.ts` (`generateAssistantResponse`): context-window
  construction (`pagesRead`, `contextText`, `systemInstruction`), the chat
  history window (`recentMessages`, `finalPrompt`), the streaming loop
  (`emitChunks`, `streamFullText`) and the error fallback (`fallbackMessage`).
* `App.tsx` (`handleSendMessage`): turn appending and the streaming
  `onChunk` callback that replaces the assistant turn's text.
* `services/bookParser` (`parsePdf`, `parseEpub`, `processOutline`): page
  text extraction, the outline walk, and the zero-page fallback.
* `components/ChatInterface.tsx` (`handleSubmit`): the submit guard, modelled
  as a state machine together with the in-flight request lifecycle.

JavaScript strings are embedded as Lean `String`; arrays as `List`;
the asynchronous streaming callback protocol as explicit lists of the
values passed to `onChunk`, in order.  External library calls (pdf.js
destination resolution, DOM parsing, JSZip) enter the model as explicit
parameters: the embedded parser functions take the data those libraries
would have produced.
-/

/- ### Character-level string helpers

Lean core's `String.trim` / `String.splitOn` are compiled by well-founded
recursion and do not reduce in the kernel, so the JavaScript string
operations used by the source are embedded structurally over `String.data`. -/

/-- Embedding of JavaScript `String.prototype.trim`: drop leading and
trailing whitespace characters. -/
def jsTrim (s : String) : String :=
  ⟨(((s.data.dropWhile Char.isWhitespace).reverse.dropWhile Char.isWhitespace).reverse)⟩

/-- Maximal runs of non-whitespace characters of a character list, in order
(the tokens of the JavaScript regexp split on `\s+`, with empties dropped).
The first argument accumulates the current run, reversed. -/
def wsWordsAux (cur : List Char) : List Char → List (List Char)
  | [] => if cur.isEmpty then [] else [cur.reverse]
  | c :: cs =>
    if c.isWhitespace then
      if cur.isEmpty then wsWordsAux [] cs else cur.reverse :: wsWordsAux [] cs
    else wsWordsAux (c :: cur) cs

/-- Embedding of the JavaScript idiom `s.replace(/\s+/g, ' ').trim()` used by
both parsers: collapse every whitespace run to a single space and trim. -/
def normalizeWs (s : String) : String :=
  String.intercalate " " ((wsWordsAux [] s.data).map (fun w => ⟨w⟩))

/-- Split a character list at a separator character; mirrors JavaScript
`String.prototype.split` with a one-character separator (so the empty
input yields one empty field). -/
def splitOnChar (sep : Char) : List Char → List (List Char)
  | [] => [[]]
  | c :: cs =>
    if c = sep then [] :: splitOnChar sep cs
    else
      match splitOnChar sep cs with
      | [] => [[c]]
      | w :: ws => (c :: w) :: ws

/-- Join character lists with a separator character (inverse of
`splitOnChar` on its output shape). -/
def joinWithChar (sep : Char) : List (List Char) → List Char
  | [] => []
  | [w] => w
  | w :: ws => w ++ sep :: joinWithChar sep ws

/-- Remove the first occurrence of `pat` from a character list; mirrors
JavaScript `String.prototype.replace(pat, '')` with a plain-string pattern,
which replaces only the first occurrence. -/
def removeFirst (pat : List Char) : List Char → List Char
  | [] => []
  | c :: cs =>
    if pat.isPrefixOf (c :: cs) then (c :: cs).drop pat.length
    else c :: removeFirst pat cs

/-- `removeFirst` lifted to `String`, as in `file.name.replace('.pdf', '')`. -/
def removeFirstStr (pat s : String) : String :=
  ⟨removeFirst pat.data s.data⟩

/-- Embedding of JavaScript `Array.prototype.slice(-n)`: the trailing `n`
elements (the whole list when it is shorter than `n`). -/
def sliceLast (n : Nat) (l : List α) : List α :=
  l.drop (l.length - n)

/- ### Data model (`types.ts`) -/

/-- The `role` field of `Message` in `types.ts`:
`'user' | 'assistant' | 'system'`. -/
inductive Role where
  | user : Role
  | assistant : Role
  | system : Role
deriving DecidableEq, Repr

/-- The `Message` interface of `types.ts`.  The optional `isStreaming?`
field is embedded as a `Bool` that is `false` where the source omits it. -/
structure Message where
  id : String
  role : Role
  content : String
  timestamp : Nat
  isStreaming : Bool
deriving DecidableEq, Repr

/-- The `TocItem` interface of `types.ts`: `page` is a 0-based index into
the pages; entries are only ever materialized from successfully resolved
destinations, so `page` is a `Nat`. -/
structure TocItem where
  title : String
  page : Nat
  level : Nat
deriving DecidableEq, Repr

/-- The `fileType` discriminator of `Book`. -/
inductive FileType where
  | pdf : FileType
  | epub : FileType
deriving DecidableEq, Repr

/-- The `renderData` field of `Book`: an opaque binary buffer for PDF
(`ArrayBuffer`, whose bytes the core never reads), or the per-page
rewritten body markup strings for EPUB. -/
inductive RenderData where
  | pdfBuffer : RenderData
  | epubHtml : List String → RenderData
deriving DecidableEq

/-- The `Book` interface of `types.ts`. -/
structure Book where
  title : String
  fileType : FileType
  content : List String
  renderData : RenderData
  totalPages : Nat
  fileName : String
  toc : List TocItem
deriving DecidableEq

/- ### `services/geminiService.ts` — `generateAssistantResponse` -/

/-- `const pagesRead = bookContext.slice(0, currentPage + 1)`: all pages up
to the current page index (0-based), inclusive.  JavaScript `slice`
saturates at the array length, as does `List.take`. -/
def pagesRead (bookContext : List String) (currentPage : Nat) : List String :=
  bookContext.take (currentPage + 1)

/-- One labeled context block: the template `[Page ${idx + 1}]: ${text}`. -/
def pageBlock (idx : Nat) (text : String) : String :=
  "[Page " ++ toString (idx + 1) ++ "]: " ++ text

/-- `pagesRead.map((text, idx) => ...).join("\n\n")`: the context text
placed into the generation request — each included page as a labeled
block, blocks joined by a blank line. -/
def contextText (bookContext : List String) (currentPage : Nat) : String :=
  String.intercalate "\n\n" ((pagesRead bookContext currentPage).mapIdx pageBlock)

/-- The `systemInstruction` template literal of `generateAssistantResponse`,
with its two interpolations `${currentPage + 1}` and `${contextText}`. -/
def systemInstruction (bookContext : List String) (currentPage : Nat) : String :=
  "\n    You are a strict \"No-Spoiler\" Reading Assistant. \n    The user is reading a book and has strictly read ONLY pages 1 to "
    ++ toString (currentPage + 1)
    ++ ".\n    \n    Here is the content they have read so far:\n    \"\"\"\n    "
    ++ contextText bookContext currentPage
    ++ "\n    \"\"\"\n\n    YOUR RULES:\n    1. Answer ONLY using the information provided in the context above.\n    2. Do NOT use outside knowledge about the book's plot, ending, or future characters.\n    3. If the user asks about an event, character, or detail NOT present in the pages read so far, respond: \"I don't have information about that yet based on the pages you've read.\"\n    4. If asked to summarize, summarize ONLY the pages provided.\n    5. If asked for a prediction, politely decline and redirect to current events.\n    6. Be helpful with definitions, clarifications, and summaries of past events.\n    \n    Maintain a helpful, literary tone.\n  "

/-- `currentHistory.filter(m => m.role !== 'system').slice(-6).map(m =>
`${m.role === 'user' ? 'User' : 'Assistant'}: ${m.content}`).join('\n')`. -/
def recentMessages (currentHistory : List Message) : String :=
  String.intercalate "\n"
    ((sliceLast 6 (currentHistory.filter (fun m => decide (m.role ≠ Role.system)))).map
      (fun m => (if m.role = Role.user then "User" else "Assistant") ++ ": " ++ m.content))

/-- `currentHistory[currentHistory.length - 1].content`.  The source indexes
the last element unconditionally; every call site passes a history ending
in the just-created user message, so the list is never empty there. -/
def lastUserMessage (currentHistory : List Message) : String :=
  ((currentHistory.getLast?).map Message.content).getD ""

/-- The `finalPrompt` template literal of `generateAssistantResponse`. -/
def finalPrompt (currentHistory : List Message) : String :=
  "\n    " ++ recentMessages currentHistory
    ++ "\n    User: " ++ lastUserMessage currentHistory
    ++ "\n    Assistant:\n  "

/-- The fixed fallback apology string returned by the `catch` block of
`generateAssistantResponse`. -/
def fallbackMessage : String :=
  "I'm having trouble connecting to my knowledge base right now. Please try again."

/-- The streaming loop of `generateAssistantResponse`, on the side of the
values passed to `onChunk`: for each raw chunk `text` delivered by the
provider, if `text` is truthy (nonempty) the accumulator grows by it and
the new accumulated value is emitted.  The result is the list of
`onChunk` arguments, in order. -/
def emitChunks (fullText : String) : List String → List String
  | [] => []
  | text :: rest =>
    if text = "" then emitChunks fullText rest
    else (fullText ++ text) :: emitChunks (fullText ++ text) rest

/-- The same loop, on the side of the `fullText` accumulator: the value the
function returns after the stream ends. -/
def streamFullText (fullText : String) : List String → String
  | [] => fullText
  | text :: rest =>
    if text = "" then streamFullText fullText rest
    else streamFullText (fullText ++ text) rest

/-- The observable outcome of one provider stream: the raw chunk texts
delivered before the stream ended, and whether it ended by throwing
(network/provider error) instead of completing. -/
structure StreamOutcome where
  deltas : List String
  errored : Bool
deriving DecidableEq

/-- The outbound request body built by `generateAssistantResponse`: the
`systemInstruction` config string and the single `finalPrompt` content
string. -/
structure GenRequest where
  instruction : String
  prompt : String
deriving DecidableEq

/-- One complete run of `generateAssistantResponse`: the request it builds,
the values it passes to `onChunk` in order, and the string its promise
resolves with.  On error the `catch` block resolves with
`fallbackMessage`; otherwise with the accumulated `fullText`. -/
structure GenRun where
  request : GenRequest
  chunkCalls : List String
  result : String
deriving DecidableEq

/-- Embedding of `generateAssistantResponse`, parameterized by the stream
outcome the provider produces. -/
def generateAssistantResponse (currentHistory : List Message) (bookContext : List String)
    (currentPage : Nat) (outcome : StreamOutcome) : GenRun :=
  { request := { instruction := systemInstruction bookContext currentPage,
                 prompt := finalPrompt currentHistory },
    chunkCalls := emitChunks "" outcome.deltas,
    result := if outcome.errored then fallbackMessage else streamFullText "" outcome.deltas }

/- ### `App.tsx` — `handleSendMessage` -/

/-- One `onChunk` callback invocation in `handleSendMessage`:
`setMessages(prev => prev.map(m => m.id === assistantMsgId ?
{ ...m, content: textChunk } : m))` — the chunk replaces the assistant
turn's text. -/
def applyChunk (msgs : List Message) (assistantMsgId : String) (textChunk : String) :
    List Message :=
  msgs.map (fun m => if m.id = assistantMsgId then { m with content := textChunk } else m)

/-- The message list after a sequence of `onChunk` invocations, in order. -/
def processChunks (msgs : List Message) (assistantMsgId : String) (chunks : List String) :
    List Message :=
  chunks.foldl (fun ms c => applyChunk ms assistantMsgId c) msgs

/-- The final `setMessages` of the `try` block: clear the assistant turn's
`isStreaming` flag. -/
def finishStreaming (msgs : List Message) (assistantMsgId : String) : List Message :=
  msgs.map (fun m => if m.id = assistantMsgId then { m with isStreaming := false } else m)

/-- Embedding of `handleSendMessage` in `App.tsx` along its `try` path
(`generateAssistantResponse` catches provider errors internally and
resolves normally, so this is the path taken on generation failure too):
append the user turn, append the empty streaming assistant placeholder,
apply each streamed chunk, then clear `isStreaming`.  The string that
`generateAssistantResponse` resolves with is discarded by the source,
exactly as here. -/
def handleSendMessage (msgs : List Message) (content : String) (uid assistantMsgId : String)
    (ts : Nat) (bookContent : List String) (currentPage : Nat) (outcome : StreamOutcome) :
    List Message :=
  let userMsg : Message :=
    { id := uid, role := Role.user, content := content, timestamp := ts, isStreaming := false }
  let withPlaceholder := (msgs ++ [userMsg]) ++
    [{ id := assistantMsgId, role := Role.assistant, content := "", timestamp := ts,
       isStreaming := true }]
  let run := generateAssistantResponse (msgs ++ [userMsg]) bookContent currentPage outcome
  finishStreaming (processChunks withPlaceholder assistantMsgId run.chunkCalls) assistantMsgId

/- ### `services/bookParser.ts` — `parsePdf` / `processOutline` -/

/-- The value of an outline item's `dest` after the source's pre-step
`if (typeof dest === 'string') dest = await pdf.getDestination(dest)`:
either an array whose head is a truthy page reference (`ref` names that
reference), or anything else — `null`, a non-array, or an array with a
falsy head (`noArr`). -/
inductive JsDest where
  | noArr : JsDest
  | ref : Nat → JsDest
deriving DecidableEq, Repr

/-- A node of the pdf.js outline tree: `item.title`, the (pre-resolved)
`item.dest`, whether `item.url` is truthy, and `item.items`. -/
inductive POutline where
  | node : String → JsDest → Bool → List POutline → POutline
deriving Repr

/-- Embedding of the recursive `processOutline` of `parsePdf`.  `gpi`
models `pdf.getPageIndex`: `none` when the lookup throws (caught, entry
not pushed).  Per item: a resolvable destination pushes one entry at the
current level; `else if (item.url) continue;` skips the item and — because
`continue` jumps past the children walk — its whole subtree; otherwise
the item pushes nothing but `item.items` is still walked at `level + 1`,
and in every non-`continue` case the walk then proceeds to the siblings. -/
def processOutline (gpi : Nat → Option Nat) : List POutline → Nat → List TocItem
  | [], _ => []
  | .node title dest url items :: rest, level =>
    match dest with
    | .ref r =>
      (match gpi r with
       | some pageIndex => [{ title := title, page := pageIndex, level := level }]
       | none => [])
        ++ processOutline gpi items (level + 1) ++ processOutline gpi rest level
    | .noArr =>
      if url then processOutline gpi rest level
      else processOutline gpi items (level + 1) ++ processOutline gpi rest level

/-- Per-page text extraction of `parsePdf`: `textContent.items.map(item =>
item.str).join(' ')`, then whitespace-collapsed and trimmed.  A page is
given by the `str` fields of its positioned text runs. -/
def extractPageText (items : List String) : String :=
  normalizeWs (String.intercalate " " items)

/-- Embedding of `parsePdf`, parameterized by the data pdf.js yields:
the text runs of each page in document order, the outline tree (`none`
when `pdf.getOutline()` resolves to null, in which case no toc is built),
and the `getPageIndex` resolver.  There is no zero-page fallback on this
path: `totalPages` is `pages.length` unconditionally. -/
def parsePdf (pageItems : List (List String)) (outline : Option (List POutline))
    (gpi : Nat → Option Nat) (fileName : String) : Book :=
  let pages := pageItems.map extractPageText
  { title := removeFirstStr ".pdf" fileName,
    fileType := FileType.pdf,
    content := pages,
    renderData := RenderData.pdfBuffer,
    totalPages := pages.length,
    fileName := fileName,
    toc := match outline with
           | some items => processOutline gpi items 0
           | none => [] }

/- ### `services/bookParser.ts` — `parseEpub` -/

/-- One selected EPUB container member (an `.html`/`.xhtml`/`.htm` zip
entry), as the DOM and image-rewriting steps of `parseEpub` leave it:
its path in the zip, `doc.body.textContent`, the image-rewritten
`doc.body.innerHTML` (opaque to every claim), the number of `<img>`
elements, and the text of the `<title>` element when one exists. -/
structure EpubMember where
  path : String
  bodyText : String
  bodyHtml : String
  imageCount : Nat
  titleTag : Option String
deriving DecidableEq

/-- The fallback title of a surviving EPUB page:
`fileName.split('/').pop()?.replace(/\.[^/.]+$/, "") ||
`Chapter ${pageIndex + 1}``. -/
def epubFallbackTitle (path : String) (pageIndex : Nat) : String :=
  let component := (splitOnChar '/' path.data).getLastD []
  let parts := splitOnChar '.' component
  let stem : List Char :=
    if 2 ≤ parts.length ∧ parts.getLastD [] ≠ [] then joinWithChar '.' parts.dropLast
    else component
  if stem ≠ [] then ⟨stem⟩ else "Chapter " ++ toString (pageIndex + 1)

/-- The title of a surviving EPUB page: the trimmed `<title>` text when
truthy, else `epubFallbackTitle`. -/
def epubTitle (m : EpubMember) (pageIndex : Nat) : String :=
  match m.titleTag with
  | some t => if jsTrim t ≠ "" then jsTrim t else epubFallbackTitle m.path pageIndex
  | none => epubFallbackTitle m.path pageIndex

/-- The member loop of `parseEpub`, accumulating `textPages`, `htmlPages`
and `toc`: a member contributes a page exactly when
`text.trim().length > 0 || images.length > 0`; the page index is
`textPages.length` at push time; toc entries are flat (`level 0`).
The input list is the selected members in the source's lexicographically
sorted order. -/
def epubScan : List EpubMember → List String → List String → List TocItem →
    List String × List String × List TocItem
  | [], textPages, htmlPages, toc => (textPages, htmlPages, toc)
  | m :: ms, textPages, htmlPages, toc =>
    if jsTrim m.bodyText ≠ "" ∨ 0 < m.imageCount then
      epubScan ms (textPages ++ [normalizeWs m.bodyText]) (htmlPages ++ [m.bodyHtml])
        (toc ++ [{ title := epubTitle m textPages.length, page := textPages.length, level := 0 }])
    else epubScan ms textPages htmlPages toc

/-- Embedding of `parseEpub`: the zero-page fallback substitutes sentinel
content and reports `totalPages` of 1 when no member contributed a page. -/
def parseEpub (members : List EpubMember) (fileName : String) : Book :=
  let scanned := epubScan members [] [] []
  let textPages := scanned.1
  let htmlPages := scanned.2.1
  { title := removeFirstStr ".epub" fileName,
    fileType := FileType.epub,
    content := if textPages ≠ [] then textPages else ["No text content found."],
    renderData := RenderData.epubHtml
      (if htmlPages ≠ [] then htmlPages else ["<p>No content found.</p>"]),
    totalPages := if htmlPages ≠ [] then htmlPages.length else 1,
    fileName := fileName,
    toc := scanned.2.2 }

/- ### `components/ChatInterface.tsx` / `App.tsx` — the submit guard -/

/-- The session state the submit guard and the request lifecycle act on:
the ordered turn list and `isAiLoading` from `App.tsx` state, plus the
number of generation requests currently outstanding (0 before any submit;
`handleSendMessage` issues exactly one request per accepted submit and it
completes before `isAiLoading` is cleared). -/
structure Sess where
  messages : List Message
  isAiLoading : Bool
  inFlight : Nat
deriving DecidableEq

/-- An accepted submit, as one cooperative step: the guard of
`ChatInterface.handleSubmit` (`if (inputValue.trim() && !isLoading)`)
composed with the synchronous prefix of `handleSendMessage` — append the
user turn and the streaming assistant placeholder, set `isAiLoading`, and
issue the single outbound generation request.  A submit that fails the
guard changes nothing and issues nothing. -/
def handleSubmit (s : Sess) (inputValue : String) (uid assistantMsgId : String) (ts : Nat) :
    Sess :=
  if jsTrim inputValue ≠ "" ∧ s.isAiLoading = false then
    { messages := (s.messages ++
        [{ id := uid, role := Role.user, content := inputValue, timestamp := ts,
           isStreaming := false }]) ++
        [{ id := assistantMsgId, role := Role.assistant, content := "", timestamp := ts,
           isStreaming := true }],
      isAiLoading := true,
      inFlight := s.inFlight + 1 }
  else s

/-- Completion of the outstanding request (normally or through the
internal error fallback): the streamed chunks have been applied, the
assistant turn's `isStreaming` flag is cleared, and the `finally` block
clears `isAiLoading`.  A completion event exists only for an outstanding
request; with none outstanding nothing happens. -/
def finishRequest (s : Sess) (assistantMsgId : String) (chunks : List String) : Sess :=
  if s.inFlight = 0 then s
  else
    { messages := finishStreaming (processChunks s.messages assistantMsgId chunks)
        assistantMsgId,
      isAiLoading := false,
      inFlight := s.inFlight - 1 }

/-- The session right after `handleBookLoaded`: the single welcome
message, not loading, no request outstanding. -/
def initialSession (welcome : Message) : Sess :=
  { messages := [welcome], isAiLoading := false, inFlight := 0 }

/-- The states a session reaches from its initial state under the two
cooperative steps (the Viewer issues one event at a time, per §5 of the
specification). -/
inductive Reachable (init : Sess) : Sess → Prop where
  | refl : Reachable init init
  | submit (s : Sess) (inputValue uid assistantMsgId : String) (ts : Nat) :
      Reachable init s → Reachable init (handleSubmit s inputValue uid assistantMsgId ts)
  | finish (s : Sess) (assistantMsgId : String) (chunks : List String) :
      Reachable init s → Reachable init (finishRequest s assistantMsgId chunks)

/- ### Specification-side definitions -/

/-- Modelled from the spec: the Context Window as §3/§4.2 describe it —
for each index `0 ≤ i ≤ currentPageIndex` that exists in `pages`, a
labeled block (1-based ordinal, then the page text), joined with a
blank-line separator in ascending page order.  Compared against the
source-derived `contextText`. -/
def contextWindowSpec (pages : List String) (currentPageIndex : Nat) : String :=
  String.intercalate "\n\n"
    ((List.range (currentPageIndex + 1)).filterMap (fun i => (pages[i]?).map (pageBlock i)))

/-- Modelled from the spec: the context for the entire document — every
page as a labeled block, joined by blank lines (what C10 says an
out-of-range index yields). -/
def entireDocumentContext (pages : List String) : String :=
  String.intercalate "\n\n" (pages.mapIdx pageBlock)

/- ### Concrete inputs used by counterexamples and witnesses -/

/-- A non-system chat turn numbered `n`, with content `"m<n>"`. -/
def mkTurn (n : Nat) (r : Role) : Message :=
  { id := toString n, role := r, content := "m" ++ toString n, timestamp := n,
    isStreaming := false }

/-- Ten prior turns (five user/assistant pairs), none of them system. -/
def prior10 : List Message :=
  [mkTurn 1 Role.user, mkTurn 2 Role.assistant, mkTurn 3 Role.user, mkTurn 4 Role.assistant,
   mkTurn 5 Role.user, mkTurn 6 Role.assistant, mkTurn 7 Role.user, mkTurn 8 Role.assistant,
   mkTurn 9 Role.user, mkTurn 10 Role.assistant]

/-- The new user turn `handleSendMessage` appends before calling the
generator, with text `"q"`. -/
def newTurn : Message :=
  { id := "u11", role := Role.user, content := "q", timestamp := 11, isStreaming := false }

/-- A resolver that resolves reference 0 to page 3 and nothing else. -/
def gpiW : Nat → Option Nat := fun r => if r = 0 then some 3 else none

/-- A resolver that resolves every reference to page 0. -/
def gpiC7 : Nat → Option Nat := fun _ => some 0

/-- The welcome message `handleBookLoaded` seeds the chat with. -/
def welcomeW : Message :=
  { id := "welcome", role := Role.assistant, content := "Hello", timestamp := 0,
    isStreaming := false }

/-- The session after one accepted submit from the initial state. -/
def sessAfterSubmit : Sess :=
  handleSubmit (initialSession welcomeW) "hi" "u1" "a1" 1

/-- An EPUB member with neither text content nor images. -/
def emptyMember : EpubMember :=
  { path := "OEBPS/blank.xhtml", bodyText := "  ", bodyHtml := "", imageCount := 0,
    titleTag := none }

/-- The resolver, outline and member used by the C9 witness. -/
def gpiW9 : Nat → Option Nat := fun r => if r = 0 then some 0 else none

/-- The single-node outline used by the C9 witness. -/
def outlineW9 : List POutline := [POutline.node "c1" (JsDest.ref 0) false []]

/-- The single EPUB member used by the C9 witness. -/
def memberW9 : EpubMember :=
  { path := "a.xhtml", bodyText := "hi", bodyHtml := "<p>hi</p>", imageCount := 0,
    titleTag := none }

/- ## Lemmas -/

/-- `mapIdx` over a `take` prefix, re-expressed over the index range: the
bridge between the source's slice-then-enumerate and the specification's
per-index description. -/
theorem mapIdx_take_eq_range_filterMap {α β : Type} :
    ∀ (l : List α) (f : Nat → α → β) (k : Nat),
      (l.take k).mapIdx f = (List.range k).filterMap (fun i => (l[i]?).map (f i)) := by
  intro l
  induction l with
  | nil => intro f k; simp
  | cons x xs ih =>
    intro f k
    cases k with
    | zero => simp
    | succ k =>
      rw [List.take_succ_cons, List.mapIdx_cons, List.range_succ_eq_map, List.filterMap_cons,
        List.filterMap_map]
      simp only [List.getElem?_cons_zero, Option.map_some', Function.comp_def,
        List.getElem?_cons_succ, Nat.succ_eq_add_one]
      rw [ih (fun i => f (i + 1)) k]

/-- Lists agreeing pointwise up to index `c` have equal `take (c+1)`
prefixes. -/
theorem take_eq_take_of_agree {α : Type} {p1 p2 : List α} {c : Nat}
    (h : ∀ i, i ≤ c → p1[i]? = p2[i]?) : p1.take (c + 1) = p2.take (c + 1) := by
  apply List.ext_getElem?
  intro n
  rw [List.getElem?_take, List.getElem?_take]
  split
  · exact h n (Nat.lt_succ_iff.mp (by assumption))
  · rfl

/- ## C1 — no leakage -/

/-- C1 (confirmed).  No leakage: the context string placed into the
generation request is independent of pages with index greater than
`currentPageIndex`.  Two runs whose pages arrays agree on indices
`0..currentPageIndex` (and differ arbitrarily beyond) produce the same
context text, and the same `systemInstruction` string placed into the
request body — the later-page text never enters the request. -/
theorem no_leakage_context_independent_of_later_pages
    (p1 p2 : List String) (c : Nat) (h : ∀ i, i ≤ c → p1[i]? = p2[i]?) :
    contextText p1 c = contextText p2 c ∧
      ∀ (history : List Message) (outcome : StreamOutcome),
        (generateAssistantResponse history p1 c outcome).request.instruction =
          (generateAssistantResponse history p2 c outcome).request.instruction := by
  have ht : pagesRead p1 c = pagesRead p2 c := take_eq_take_of_agree h
  have hc : contextText p1 c = contextText p2 c := by
    unfold contextText
    rw [ht]
  refine ⟨hc, fun history outcome => ?_⟩
  simp only [generateAssistantResponse, systemInstruction, hc]

/-- C1 witness: with pages `["A","B","C"]` and `["A","B","Z"]` agreeing on
indices 0..1, the context at page index 1 is identical. -/
theorem no_leakage_witness :
    contextText ["A", "B", "C"] 1 = contextText ["A", "B", "Z"] 1 :=
  (no_leakage_context_independent_of_later_pages ["A", "B", "C"] ["A", "B", "Z"] 1
    (by intro i hi; interval_cases i <;> rfl)).1

/- ## C2 — context derivation -/

/-- C2 (confirmed).  For every valid `currentPageIndex`, the context
window the code builds equals exactly the specification's description:
pages `0..currentPageIndex` inclusive, each as a labeled block (1-based
ordinal then text), joined with a blank-line separator in ascending page
order.  Both sides are plain functions of `(pages, currentPageIndex)`:
there is no state to memoize. -/
theorem contextText_eq_spec_window (pages : List String) (c : Nat)
    (h : c < pages.length) :
    contextText pages c = contextWindowSpec pages c := by
  unfold contextText contextWindowSpec pagesRead
  rw [mapIdx_take_eq_range_filterMap]

/-- C2 witness: pages `["A","B","C"]` at index 1. -/
theorem contextText_eq_spec_window_witness :
    1 < (["A", "B", "C"] : List String).length ∧
      contextText ["A", "B", "C"] 1 = contextWindowSpec ["A", "B", "C"] 1 :=
  ⟨by decide, contextText_eq_spec_window ["A", "B", "C"] 1 (by decide)⟩

/- ## C10 — out-of-range index is total -/

/-- C10 (confirmed).  For `currentPageIndex` at or beyond the number of
pages (e.g. a stale saved index restored for a shorter document),
context construction still succeeds — `contextText` is a total function —
and yields the context of the entire document, because the prefix slice
saturates at the array length. -/
theorem contextText_total_out_of_range (pages : List String) (c : Nat)
    (h : pages.length ≤ c) :
    contextText pages c = entireDocumentContext pages := by
  unfold contextText entireDocumentContext pagesRead
  rw [List.take_of_length_le (le_trans h (Nat.le_succ c))]

/-- C10 witness: two pages, stale index 7. -/
theorem contextText_total_out_of_range_witness :
    (["A", "B"] : List String).length ≤ 7 ∧
      contextText ["A", "B"] 7 = entireDocumentContext ["A", "B"] :=
  ⟨by decide, contextText_total_out_of_range ["A", "B"] 7 (by decide)⟩

/- ## C4 — streaming semantics -/

/-- Each `onChunk` delivery replaces the assistant turn's text: after any
sequence of deliveries the turn holds the last delivered value (its old
content when nothing was delivered), never a concatenation. -/
theorem processChunks_replaces (msgs : List Message) (aid : String) (cs : List String) :
    processChunks msgs aid cs =
      msgs.map (fun m =>
        if m.id = aid then { m with content := cs.getLastD m.content } else m) := by
  induction cs generalizing msgs with
  | nil =>
    unfold processChunks
    rw [List.foldl_nil]
    have hid : ∀ m : Message,
        (if m.id = aid then { m with content := List.getLastD [] m.content } else m) = m := by
      intro m
      split <;> rfl
    rw [List.map_congr_left (fun m _ => hid m), List.map_id']
  | cons c cs ih =>
    unfold processChunks at ih ⊢
    rw [List.foldl_cons, ih (applyChunk msgs aid c)]
    unfold applyChunk
    rw [List.map_map]
    apply List.map_congr_left
    intro m _
    by_cases hm : m.id = aid
    · simp only [Function.comp_def, hm, if_true, eq_self_iff_true, List.getLastD_cons]
    · simp only [Function.comp_def, if_neg hm]

/-- The chunk values the streaming loop delivers are the growing
accumulator snapshots: the last delivered value (the accumulator itself
when every delta was empty) is exactly the `fullText` the loop returns. -/
theorem emitChunks_getLastD (ds : List String) : ∀ acc : String,
    (emitChunks acc ds).getLastD acc = streamFullText acc ds := by
  induction ds with
  | nil => intro acc; rfl
  | cons d ds ih =>
    intro acc
    unfold emitChunks streamFullText
    by_cases hd : d = ""
    · simp only [if_pos hd]
      exact ih acc
    · simp only [if_neg hd, List.getLastD_cons]
      exact ih (acc ++ d)

/-- C4 (confirmed).  Streaming semantics: (1) each delivered increment
replaces — does not append to — the assistant turn's visible text, so
after any in-order delivery sequence the turn's text is the last
delivered cumulative value; (2) the values the loop delivers are the
cumulative accumulator snapshots, the last of which is the final
`fullText`; (3) concretely, increments `"H"`, `"He"`, `"Hello"` leave the
turn's text `"Hello"`, never `"HHeHello"`. -/
theorem streaming_increments_replace_not_append :
    (∀ (msgs : List Message) (aid : String) (cs : List String),
        processChunks msgs aid cs =
          msgs.map (fun m =>
            if m.id = aid then { m with content := cs.getLastD m.content } else m)) ∧
    (∀ (acc : String) (ds : List String),
        (emitChunks acc ds).getLastD acc = streamFullText acc ds) ∧
    processChunks
        [{ id := "a1", role := Role.assistant, content := "", timestamp := 0,
           isStreaming := true }] "a1" ["H", "He", "Hello"] =
      [{ id := "a1", role := Role.assistant, content := "Hello", timestamp := 0,
         isStreaming := true }] :=
  ⟨processChunks_replaces, fun acc ds => emitChunks_getLastD ds acc, by decide⟩

/- ## C3 — history window -/

set_option maxRecDepth 100000 in
/-- C3 counterexample.  With the ten prior turns `m1..m10` of `prior10`
and the new user turn `"q"`, the claim puts the six most recent prior
turns — `m5..m10` — role-labeled into the request.  The prompt the code
builds does not contain `"m5"` at all: `handleSendMessage` passes
`[...messages, userMsg]`, so the `slice(-6)` window already contains the
just-appended user turn and only the five most recent prior turns
survive. -/
theorem history_window_counterexample :
    ¬ ("m5".data <:+: (finalPrompt (prior10 ++ [newTurn])).data) := by
  decide

/-- C3 (corrected).  The history actually windowed is the one with the
new user turn already appended: for any prior turns `ps` (none of them
system) and new user turn `u`, the request after the instruction block
consists of the role-labeled window `sliceLast 5 ps ++ [u]` — at most the
five most recent prior turns followed by the new turn — oldest first,
and then the new user turn's text appears a second time as the final
`User:` line. -/
theorem history_window_amended (ps : List Message) (u : Message)
    (hps : ∀ m ∈ ps, m.role ≠ Role.system) (hu : u.role = Role.user) :
    finalPrompt (ps ++ [u]) =
      "\n    " ++ String.intercalate "\n"
          ((sliceLast 5 ps ++ [u]).map
            (fun m => (if m.role = Role.user then "User" else "Assistant") ++ ": " ++ m.content))
        ++ "\n    User: " ++ u.content ++ "\n    Assistant:\n  " := by
  have hfilter : (ps ++ [u]).filter (fun m => decide (m.role ≠ Role.system)) = ps ++ [u] := by
    rw [List.filter_eq_self]
    intro m hm
    rcases List.mem_append.mp hm with h | h
    · simpa using hps m h
    · rw [List.mem_singleton.mp h]
      simp [hu]
  have hslice : sliceLast 6 (ps ++ [u]) = sliceLast 5 ps ++ [u] := by
    unfold sliceLast
    rw [List.length_append, List.drop_append_eq_append_drop]
    have h1 : ps.length + [u].length - 6 = ps.length - 5 := by
      simp only [List.length_singleton]
      omega
    have h2 : ps.length - 5 - ps.length = 0 := by omega
    rw [h1, h2, List.drop_zero]
  have hlast : lastUserMessage (ps ++ [u]) = u.content := by
    unfold lastUserMessage
    rw [List.getLast?_append]
    rfl
  unfold finalPrompt recentMessages
  rw [hfilter, hslice, hlast]

/-- C3 witness: the amended window at the concrete ten-turn history. -/
theorem history_window_amended_witness :
    (∀ m ∈ prior10, m.role ≠ Role.system) ∧ newTurn.role = Role.user ∧
      finalPrompt (prior10 ++ [newTurn]) =
        "\n    " ++ String.intercalate "\n"
            ((sliceLast 5 prior10 ++ [newTurn]).map
              (fun m =>
                (if m.role = Role.user then "User" else "Assistant") ++ ": " ++ m.content))
          ++ "\n    User: " ++ newTurn.content ++ "\n    Assistant:\n  " :=
  ⟨by decide, by decide, history_window_amended prior10 newTurn (by decide) (by decide)⟩

/- ## C5 — failure handling -/

/-- C5 (code bug evidence).  When the text-generation call errors before
delivering any chunk, `generateAssistantResponse` resolves with the fixed
fallback apology string — but `handleSendMessage` discards that resolved
value, so the streaming assistant turn's final text stays `""` (not the
apology), while `isStreaming` does become `false` and the session does
return to idle.  The claim's "final text becomes a fixed fallback apology
string" is the one part the code does not do. -/
theorem generation_failure_fallback_discarded :
    handleSendMessage [] "hi" "u1" "a1" 0 ["ctx"] 0 { deltas := [], errored := true } =
      [{ id := "u1", role := Role.user, content := "hi", timestamp := 0, isStreaming := false },
       { id := "a1", role := Role.assistant, content := "", timestamp := 0,
         isStreaming := false }] ∧
    (generateAssistantResponse
        [{ id := "u1", role := Role.user, content := "hi", timestamp := 0,
           isStreaming := false }]
        ["ctx"] 0 { deltas := [], errored := true }).result = fallbackMessage ∧
    ("" : String) ≠ fallbackMessage :=
  ⟨by decide, rfl, by decide⟩

/- ## C6 — zero-page fallback -/

/-- C6 counterexample.  A PDF whose parse succeeds with zero pages: the
resulting `Book` has `totalPages = 0` and empty `content` — no sentinel
page, falsifying the claim's "pageCount at least 1" for the PDF path.
Only the EPUB path implements the fallback. -/
theorem zero_page_pdf_no_fallback :
    ¬ (1 ≤ (parsePdf [] none (fun _ => none) "empty.pdf").totalPages) := by decide

/-- Members contributing no page leave the `parseEpub` accumulators
untouched. -/
theorem epubScan_of_no_pages (ms : List EpubMember) :
    ∀ (ts hs : List String) (toc : List TocItem),
      (∀ m ∈ ms, ¬ (jsTrim m.bodyText ≠ "" ∨ 0 < m.imageCount)) →
      epubScan ms ts hs toc = (ts, hs, toc) := by
  induction ms with
  | nil => intro ts hs toc _; rfl
  | cons m ms ih =>
    intro ts hs toc h
    unfold epubScan
    rw [if_neg (h m (List.mem_cons_self m ms))]
    exact ih ts hs toc (fun m' hm' => h m' (List.mem_cons_of_mem m hm'))

/-- C6 (corrected).  The zero-page fallback exists on the EPUB path only:
for every EPUB input `parseEpub` reports `totalPages ≥ 1`, and when no
member contributes a page the `Book` carries the sentinel "no content"
page (text and render payload) with `totalPages = 1`.  (The PDF path has
no such fallback — see the counterexample.) -/
theorem epub_zero_page_fallback :
    (∀ (members : List EpubMember) (fn : String),
        1 ≤ (parseEpub members fn).totalPages) ∧
    (∀ (members : List EpubMember) (fn : String),
        (∀ m ∈ members, ¬ (jsTrim m.bodyText ≠ "" ∨ 0 < m.imageCount)) →
          (parseEpub members fn).content = ["No text content found."] ∧
          (parseEpub members fn).totalPages = 1 ∧
          (parseEpub members fn).renderData =
            RenderData.epubHtml ["<p>No content found.</p>"]) := by
  constructor
  · intro members fn
    unfold parseEpub
    by_cases hh : (epubScan members [] [] []).2.1 = []
    · simp [hh]
    · simp only [hh, ne_eq, not_false_eq_true, if_true]
      exact List.length_pos.mpr hh
  · intro members fn h
    unfold parseEpub
    rw [epubScan_of_no_pages members [] [] [] h]
    exact ⟨rfl, rfl, rfl⟩

/-- C6 witness: a single member with blank text and no images yields the
sentinel one-page EPUB book. -/
theorem epub_zero_page_fallback_witness :
    (∀ m ∈ [emptyMember], ¬ (jsTrim m.bodyText ≠ "" ∨ 0 < m.imageCount)) ∧
      (parseEpub [emptyMember] "b.epub").content = ["No text content found."] ∧
      (parseEpub [emptyMember] "b.epub").totalPages = 1 ∧
      (parseEpub [emptyMember] "b.epub").renderData =
        RenderData.epubHtml ["<p>No content found.</p>"] :=
  ⟨by decide, epub_zero_page_fallback.2 [emptyMember] "b.epub" (by decide)⟩

/- ## C7 — outline walk -/

/-- An outline item with a resolvable destination contributes its entry to
the walk of any list containing it, at the walk's current level. -/
theorem mem_processOutline_of_mem (gpi : Nat → Option Nat) (items : List POutline)
    (level : Nat) (t : String) (r : Nat) (u : Bool) (cits : List POutline) (p : Nat)
    (hmem : POutline.node t (JsDest.ref r) u cits ∈ items) (hr : gpi r = some p) :
    ({ title := t, page := p, level := level } : TocItem) ∈
      processOutline gpi items level := by
  induction items with
  | nil => cases hmem
  | cons x rest ih =>
    rcases List.mem_cons.mp hmem with h | h
    · rw [← h]
      simp [processOutline, hr]
    · cases x with
      | node xt xd xu xits =>
        cases xd with
        | noArr =>
          by_cases hxu : xu = true
          · simp only [processOutline]
            rw [if_pos hxu]
            exact ih h
          · simp only [processOutline]
            rw [if_neg hxu]
            exact List.mem_append.mpr (Or.inr (ih h))
        | ref xr =>
          simp only [processOutline, List.mem_append]
          exact Or.inr (ih h)

/-- C7 counterexample.  An outline node that is an external link (`url`
set, no destination array) with a resolvable child: the claim says the
child appears at the next deeper nesting level, but the source's
`continue` skips the children walk along with the node, so the walk
produces nothing. -/
theorem outline_external_link_counterexample :
    ({ title := "child", page := 0, level := 1 } : TocItem) ∉
      processOutline gpiC7
        [POutline.node "ext" JsDest.noArr true
          [POutline.node "child" (JsDest.ref 0) false []]] 0 := by
  simp [processOutline, gpiC7]

/-- C7 (corrected).  A node whose destination fails to resolve to a page
index is skipped while its children are still walked — a resolvable child
appears at the next deeper nesting level (first conjunct, for both
resolution-failure modes: a destination array whose lookup throws, and no
destination array at all).  But a node whose target is an external link
is skipped together with its entire subtree: its children are not walked
(second conjunct). -/
theorem outline_walk_amended :
    (∀ (gpi : Nat → Option Nat) (t : String) (r : Nat) (u : Bool)
        (its rest : List POutline) (level : Nat) (ct : String) (r' : Nat) (cu : Bool)
        (cits : List POutline) (p : Nat),
        gpi r = none →
        POutline.node ct (JsDest.ref r') cu cits ∈ its →
        gpi r' = some p →
        ({ title := ct, page := p, level := level + 1 } : TocItem) ∈
            processOutline gpi (POutline.node t (JsDest.ref r) u its :: rest) level ∧
          ({ title := ct, page := p, level := level + 1 } : TocItem) ∈
            processOutline gpi (POutline.node t JsDest.noArr false its :: rest) level) ∧
    (∀ (gpi : Nat → Option Nat) (t : String) (its rest : List POutline) (level : Nat),
        processOutline gpi (POutline.node t JsDest.noArr true its :: rest) level =
          processOutline gpi rest level) := by
  constructor
  · intro gpi t r u its rest level ct r' cu cits p hfail hmem hres
    constructor
    · simp only [processOutline, hfail, List.nil_append, List.mem_append]
      exact Or.inl (mem_processOutline_of_mem gpi its (level + 1) ct r' cu cits p hmem hres)
    · simp only [processOutline]
      rw [if_neg Bool.false_ne_true]
      exact List.mem_append.mpr
        (Or.inl (mem_processOutline_of_mem gpi its (level + 1) ct r' cu cits p hmem hres))
  · intro gpi t its rest level
    simp [processOutline]

/-- C7 witness: a failed-resolution parent (`gpiW 9 = none`) whose child
resolves (`gpiW 0 = some 3`) contributes the child entry at level 1; an
external-link node's subtree is dropped wholesale. -/
theorem outline_walk_amended_witness :
    ({ title := "child", page := 3, level := 1 } : TocItem) ∈
        processOutline gpiW
          [POutline.node "bad" (JsDest.ref 9) false
            [POutline.node "child" (JsDest.ref 0) false []]] 0 ∧
      processOutline gpiW
          [POutline.node "ext" JsDest.noArr true
            [POutline.node "child" (JsDest.ref 0) false []]] 0 =
        processOutline gpiW [] 0 :=
  ⟨(outline_walk_amended.1 gpiW "bad" 9 false
      [POutline.node "child" (JsDest.ref 0) false []] [] 0 "child" 0 false [] 3
      rfl (List.mem_singleton.mpr rfl) rfl).1,
   outline_walk_amended.2 gpiW "ext"
     [POutline.node "child" (JsDest.ref 0) false []] [] 0⟩

/- ## C9 — outline entry invariant -/

/-- Every entry the outline walk materializes carries a page index that
some reference successfully resolved to — entries whose destination fails
to resolve are dropped, never retained with a default. -/
theorem processOutline_page_resolves (gpi : Nat → Option Nat) (items : List POutline)
    (level : Nat) :
    ∀ e ∈ processOutline gpi items level, ∃ r, gpi r = some e.page := by
  induction items, level using processOutline.induct gpi with
  | case1 level =>
    intro e he
    simp [processOutline] at he
  | case2 t u its rest level r ih1 ih2 =>
    intro e he
    simp only [processOutline] at he
    rcases hgr : gpi r with _ | p
    · rw [hgr] at he
      simp only [List.nil_append, List.mem_append] at he
      rcases he with h | h
      · exact ih1 e h
      · exact ih2 e h
    · rw [hgr] at he
      simp only [List.cons_append, List.nil_append, List.mem_cons, List.mem_append] at he
      rcases he with h | h | h
      · subst h
        exact ⟨r, hgr⟩
      · exact ih1 e h
      · exact ih2 e h
  | case3 t its rest level ih =>
    intro e he
    simp only [processOutline, if_true] at he
    exact ih e he
  | case4 t u its rest level hu ih1 ih2 =>
    intro e he
    simp only [processOutline] at he
    rw [if_neg hu] at he
    rcases List.mem_append.mp he with h | h
    · exact ih1 e h
    · exact ih2 e h

/-- The `parseEpub` member loop keeps the text/html page lists the same
length and every accumulated toc entry's page index below the number of
text pages. -/
theorem epubScan_inv (ms : List EpubMember) :
    ∀ (ts hs : List String) (toc : List TocItem),
      ts.length = hs.length → (∀ e ∈ toc, e.page < ts.length) →
      (epubScan ms ts hs toc).1.length = (epubScan ms ts hs toc).2.1.length ∧
        ∀ e ∈ (epubScan ms ts hs toc).2.2, e.page < (epubScan ms ts hs toc).1.length := by
  induction ms with
  | nil =>
    intro ts hs toc h1 h2
    exact ⟨h1, h2⟩
  | cons m ms ih =>
    intro ts hs toc h1 h2
    unfold epubScan
    split
    · apply ih
      · simp [h1]
      · intro e he
        rcases List.mem_append.mp he with h | h
        · have := h2 e h
          simp only [List.length_append, List.length_singleton]
          omega
        · rw [List.mem_singleton.mp h]
          simp
    · exact ih ts hs toc h1 h2

/-- C9 (confirmed).  Under the pdf.js contract that `getPageIndex`
resolves references to indices below the page count, every outline entry
of a parsed PDF has `page < totalPages` and stems from a successful
resolution (failed entries are dropped); every outline entry of a parsed
EPUB likewise has `page < totalPages`.  `page` is a `Nat`, so `0 ≤ page`
holds by type. -/
theorem outline_entries_in_bounds
    (pageItems : List (List String)) (outlineItems : List POutline)
    (gpi : Nat → Option Nat) (fn : String) (members : List EpubMember) (gn : String)
    (hg : ∀ r p, gpi r = some p → p < pageItems.length) :
    (∀ e ∈ (parsePdf pageItems (some outlineItems) gpi fn).toc,
        (∃ r, gpi r = some e.page) ∧
          e.page < (parsePdf pageItems (some outlineItems) gpi fn).totalPages) ∧
    (∀ e ∈ (parseEpub members gn).toc, e.page < (parseEpub members gn).totalPages) := by
  constructor
  · intro e he
    have hres : ∃ r, gpi r = some e.page := by
      apply processOutline_page_resolves gpi outlineItems 0 e
      simpa [parsePdf] using he
    refine ⟨hres, ?_⟩
    rcases hres with ⟨r, hr⟩
    have := hg r e.page hr
    simpa [parsePdf] using this
  · have hinv := epubScan_inv members [] [] [] rfl (by intro e he; cases he)
    intro e he
    have hlt : e.page < (epubScan members [] [] []).1.length := by
      apply hinv.2 e
      simpa [parseEpub] using he
    by_cases hh : (epubScan members [] [] []).2.1 = []
    · rw [hh] at hinv
      simp only [List.length_nil] at hinv
      rw [hinv.1] at hlt
      cases Nat.not_lt_zero _ hlt
    · have : (parseEpub members gn).totalPages = (epubScan members [] [] []).2.1.length := by
        simp [parseEpub, hh]
      rw [this, ← hinv.1]
      exact hlt

/-- C9 witness: a one-page PDF whose single outline node resolves to page
0, and a one-member EPUB. -/
theorem outline_entries_in_bounds_witness :
    (∀ r p, gpiW9 r = some p → p < ([["Hello", "world"]] : List (List String)).length) ∧
      (∀ e ∈ (parsePdf [["Hello", "world"]] (some outlineW9) gpiW9 "w.pdf").toc,
        (∃ r, gpiW9 r = some e.page) ∧
          e.page < (parsePdf [["Hello", "world"]] (some outlineW9) gpiW9 "w.pdf").totalPages) ∧
      (∀ e ∈ (parseEpub [memberW9] "w.epub").toc,
        e.page < (parseEpub [memberW9] "w.epub").totalPages) :=
  have hg : ∀ r p, gpiW9 r = some p →
      p < ([["Hello", "world"]] : List (List String)).length := by
    intro r p h
    unfold gpiW9 at h
    by_cases hr : r = 0
    · rw [if_pos hr] at h
      cases h
      decide
    · rw [if_neg hr] at h
      cases h
  have main := outline_entries_in_bounds [["Hello", "world"]] outlineW9 gpiW9 "w.pdf"
    [memberW9] "w.epub" hg
  ⟨hg, main.1, main.2⟩

/- ## C8 — at most one in-flight request -/

/-- In every reachable session state, the number of outstanding requests
is determined by the loading flag: one while `isAiLoading`, zero
otherwise. -/
theorem reachable_inFlight_invariant (w : Message) (s : Sess)
    (h : Reachable (initialSession w) s) :
    s.inFlight = (if s.isAiLoading then 1 else 0) := by
  induction h with
  | refl => rfl
  | submit s input uid aid ts _ ih =>
    unfold handleSubmit
    split
    · rename_i hcond
      rw [hcond.2] at ih
      simp at ih
      simp [ih]
    · exact ih
  | finish s aid chunks _ ih =>
    unfold finishRequest
    split
    · exact ih
    · rename_i hne
      rcases hload : s.isAiLoading with _ | _
      · rw [hload] at ih
        simp at ih
        exact absurd ih hne
      · rw [hload] at ih
        simp at ih
        simp [ih]

/-- C8 (confirmed).  In every reachable session state at most one
generation request is outstanding, and a submit issued while a request is
in flight (`isAiLoading`) is ignored: the guard of
`ChatInterface.handleSubmit` fails, so the state is unchanged — no second
outbound request is issued and no second assistant turn is appended. -/
theorem at_most_one_in_flight (w : Message) (s : Sess)
    (h : Reachable (initialSession w) s) :
    s.inFlight ≤ 1 ∧
      (s.isAiLoading = true →
        ∀ (input uid aid : String) (ts : Nat), handleSubmit s input uid aid ts = s) := by
  have hinv := reachable_inFlight_invariant w s h
  constructor
  · rw [hinv]
    split <;> omega
  · intro hload input uid aid ts
    unfold handleSubmit
    rw [if_neg]
    intro hcond
    rw [hload] at hcond
    exact absurd hcond.2 (by decide)

/-- C8 witness: after one accepted submit the session is loading with one
request outstanding; a second submit is ignored wholesale. -/
theorem at_most_one_in_flight_witness :
    sessAfterSubmit.inFlight ≤ 1 ∧
      handleSubmit sessAfterSubmit "again" "u2" "a2" 2 = sessAfterSubmit :=
  have hr : Reachable (initialSession welcomeW) sessAfterSubmit :=
    Reachable.submit (initialSession welcomeW) "hi" "u1" "a1" 1 Reachable.refl
  ⟨(at_most_one_in_flight welcomeW sessAfterSubmit hr).1,
   (at_most_one_in_flight welcomeW sessAfterSubmit hr).2 (by decide) "again" "u2" "a2" 2⟩
